import Mathlib

/-!
Verification of the `Settings` configuration registry from
`src/nix/libstore/globals.cc` (the guix build daemon's settings store).

The registry owns an untyped string map (`settings`, the backing store),
an override log (`overrides`), and a fixed set of strongly typed fields.
We embed the data model and the operations `Settings::set`, the four
`Settings::get` overloads, `Settings::update`, `Settings::pack` and
`Settings::getOverrides` as executable Lean functions and prove the
specified properties about them.

Helper routines from `nix/libutil/util.{hh,cc}` (`getEnv`, `canonPath`,
`tokenizeString`, `string2Int`) are not part of the shown source tree;
they are modelled from the specification, as marked on each definition.
-/

namespace Globals

/-- The process environment: a partial map from variable names to values. -/
def Env : Type := String → Option String

/-- Modelled from the spec: `getEnv(key, def)` from `nix/libutil/util.cc`
(not under src/) returns the value of the environment variable `key`
when it is set, and `def` otherwise. -/
def getEnvD (env : Env) (key dflt : String) : String :=
  (env key).getD dflt

/-- Embeds `std::string::find(c) != std::string::npos`: does the string
contain the character `c`? -/
def strContainsChar (s : String) (c : Char) : Bool :=
  s.data.contains c

/-- The backing store and the override log: `std::map<string, string>`
(`Settings::SettingsMap`), embedded as an association list kept in
ascending key order by `mapInsert`. -/
abbrev SettingsMap : Type := List (String × String)

/-- `map.find(name)`: the value stored under `name`, if any. -/
def mapFind (m : SettingsMap) (k : String) : Option String :=
  match m with
  | [] => none
  | (k1, v1) :: t => if k = k1 then some v1 else mapFind t k

/-- Lexicographic comparison of character lists by code point,
embedding `std::string::operator<`. -/
def charListLt : List Char → List Char → Bool
  | [], [] => false
  | [], _ :: _ => true
  | _ :: _, [] => false
  | c1 :: t1, c2 :: t2 =>
    if c1.toNat < c2.toNat then true
    else if c2.toNat < c1.toNat then false
    else charListLt t1 t2

/-- `std::string` ordering (the key order of `std::map`). -/
def strLt (a b : String) : Bool := charListLt a.data b.data

/-- `map[name] = value`: replace the value if the key is present,
otherwise insert the pair, keeping the list sorted by key as
`std::map` does. -/
def mapInsert (k v : String) (m : SettingsMap) : SettingsMap :=
  match m with
  | [] => [(k, v)]
  | (k1, v1) :: t =>
    if k = k1 then (k, v) :: t
    else if strLt k k1 then (k, v) :: (k1, v1) :: t
    else (k1, v1) :: mapInsert k v t

/-- Splitting a character list at every occurrence of a separator
(separators drawn from `seps`); the pieces between separators are kept,
including empty ones. -/
def splitAny (seps : List Char) : List Char → List (List Char)
  | [] => [[]]
  | c :: t =>
    if seps.contains c then [] :: splitAny seps t
    else
      match splitAny seps t with
      | [] => [[c]]
      | l :: ls => (c :: l) :: ls

/-- Modelled from the spec: `tokenizeString` from `nix/libutil/util.cc`
(not under src/) splits the raw value on the separator characters into
an ordered sequence of non-empty tokens; an empty raw value yields an
empty sequence. -/
def tokenizeString (seps : List Char) (s : String) : List String :=
  ((splitAny seps s.data).filter (fun l => !l.isEmpty)).map String.mk

/-- The default separator set of `tokenizeString`: whitespace. -/
def whitespaceSeps : List Char := [' ', '\t', '\n', '\r']

/-- One path component list step: drop empty components and `.`,
resolve `..` by popping. Helper for `canonPath`. -/
def canonComponents (l : List (List Char)) : List (List Char) :=
  l.foldl
    (fun acc comp =>
      if comp.isEmpty then acc
      else if comp = ['.'] then acc
      else if comp = ['.', '.'] then acc.dropLast
      else acc ++ [comp])
    []

/-- Modelled from the spec: `canonPath` from `nix/libutil/util.cc` (not
under src/) canonicalizes a path — duplicate and trailing slashes are
removed and `.`/`..` components resolved lexically; per the spec the
construction-time resolution never raises, so this model is total. -/
def canonPath (p : String) : String :=
  let comps := canonComponents (splitAny ['/'] p.data)
  match comps with
  | [] => "/"
  | _ => String.mk (comps.foldl (fun acc c => acc ++ '/' :: c) [])

/-- A decimal digit character to its value, via `c - '0'`. -/
def digitVal (c : Char) : Nat := c.toNat - 48

/-- Parse a non-empty all-digit character list into a number,
left to right. -/
def parseNatAux : List Char → Nat → Option Nat
  | [], acc => some acc
  | c :: t, acc =>
    if c.isDigit then parseNatAux t (10 * acc + digitVal c) else none

/-- The whole character list as a base-10 natural number; `none` when
empty or when any character is not a digit. -/
def parseNatDigits : List Char → Option Nat
  | [] => none
  | c :: t => parseNatAux (c :: t) 0

/-- Modelled from the spec: `string2Int` from `nix/libutil/util.hh` (not
under src/) parses the raw value as a base-10 signed integer using the
full string: an optional single leading sign followed by one or more
digits and nothing else; any other string fails. -/
def string2Int (s : String) : Option Int :=
  match s.data with
  | [] => none
  | c :: rest =>
    if c = '-' then (parseNatDigits rest).map (fun n => -(n : Int))
    else if c = '+' then (parseNatDigits rest).map (fun n => (n : Int))
    else (parseNatDigits (c :: rest)).map (fun n => (n : Int))

/-- The value of a digit rendered as a character, via `'0' + d`. -/
def digitChar (d : Nat) : Char := Char.ofNat (48 + d)

/-- The big-endian digit characters of `n` (empty for `n = 0`). -/
def natDigitsRepr (n : Nat) : List Char :=
  (Nat.digits 10 n).reverse.map digitChar

/-- The usual decimal rendering of a natural number. -/
def natRepr (n : Nat) : String :=
  if n = 0 then "0" else String.mk (natDigitsRepr n)

/-- The usual decimal rendering of an integer (`str(n)` in the spec's
round-trip law). -/
def intRepr (n : Int) : String :=
  if n < 0 then "-" ++ natRepr n.natAbs else natRepr n.natAbs

/-- `COMPRESSION_*` from `globals.hh`; the constructor picks bzip2 when
`HAVE_BZLIB_H` is set (assumed here). -/
inductive Compression
  | none
  | gzip
  | bzip2
deriving DecidableEq, Repr

/-- Modelled compile-time constant `NIX_STORE_DIR` (configure macro). -/
def NIX_STORE_DIR_c : String := "/gnu/store"

/-- Modelled compile-time constant `NIX_DATA_DIR` (configure macro). -/
def NIX_DATA_DIR_c : String := "/usr/local/share"

/-- Modelled compile-time constant `NIX_LOG_DIR` (configure macro). -/
def NIX_LOG_DIR_c : String := "/usr/local/var/log/guix"

/-- Modelled compile-time constant `NIX_STATE_DIR` (configure macro). -/
def NIX_STATE_DIR_c : String := "/usr/local/var/guix"

/-- Modelled compile-time constant `GUIX_CONFIGURATION_DIRECTORY`. -/
def GUIX_CONFIGURATION_DIRECTORY_c : String := "/usr/local/etc/guix"

/-- Modelled compile-time constant `NIX_LIBEXEC_DIR` (configure macro). -/
def NIX_LIBEXEC_DIR_c : String := "/usr/local/libexec"

/-- Modelled compile-time constant `NIX_BIN_DIR` (configure macro). -/
def NIX_BIN_DIR_c : String := "/usr/local/bin"

/-- Modelled compile-time constant `SYSTEM` (configure macro). -/
def SYSTEM_c : String := "x86_64-linux"

/-- `DEFAULT_SOCKET_PATH` from `globals.cc`. -/
def DEFAULT_SOCKET_PATH : String := "/daemon-socket/socket"

/-- The strongly typed fields of `Settings` (`globals.hh` data members
other than the two maps). C++ integer widths (`unsigned int`,
`size_t`, `uint64_t`, `time_t`) are all embedded as `Int`; `Verbosity`
is embedded as `Int` (`lvlError = 0`). -/
structure TypedFields where
  keepFailed : Bool
  keepGoing : Bool
  tryFallback : Bool
  buildVerbosity : Int
  maxBuildJobs : Int
  buildCores : Int
  readOnlyMode : Bool
  thisSystem : String
  maxSilentTime : Int
  buildTimeout : Int
  useBuildHook : Bool
  printBuildTrace : Bool
  reservedSize : Int
  fsyncMetadata : Bool
  useSQLiteWAL : Bool
  syncBeforeRegistering : Bool
  useSubstitutes : Bool
  buildUsersGroup : String
  useChroot : Bool
  impersonateLinux26 : Bool
  keepLog : Bool
  logCompression : Compression
  maxLogSize : Int
  cacheFailure : Bool
  pollInterval : Int
  checkRootReachability : Bool
  gcKeepOutputs : Bool
  gcKeepDerivations : Bool
  autoOptimiseStore : Bool
  envKeepDerivations : Bool
  lockCPU : Bool
  showTrace : Bool
  substituters : List String
  nixStore : String
  nixDataDir : String
  nixLogDir : String
  nixStateDir : String
  nixDBPath : String
  nixConfDir : String
  nixLibexecDir : String
  nixBinDir : String
  nixDaemonSocketFile : String
deriving DecidableEq, Repr

/-- The whole registry: the backing store (`settings`), the override
log (`overrides`) and the typed field set. -/
structure SettingsState where
  settings : SettingsMap
  overrides : SettingsMap
  fields : TypedFields
deriving DecidableEq

/-- `Settings::Settings()`: compiled-in defaults for every typed field;
both maps start empty. The only environment read is
`getEnv("NIX_AFFINITY_HACK", "1") == "1"` for `lockCPU`. Path fields
are default-initialized (empty) until `processEnvironment` runs. -/
def initSettings (env : Env) : SettingsState where
  settings := []
  overrides := []
  fields :=
    { keepFailed := false
      keepGoing := false
      tryFallback := false
      buildVerbosity := 0
      maxBuildJobs := 1
      buildCores := 1
      readOnlyMode := false
      thisSystem := SYSTEM_c
      maxSilentTime := 0
      buildTimeout := 0
      useBuildHook := true
      printBuildTrace := false
      reservedSize := 8 * 1024 * 1024
      fsyncMetadata := true
      useSQLiteWAL := true
      syncBeforeRegistering := false
      useSubstitutes := true
      buildUsersGroup := ""
      useChroot := false
      impersonateLinux26 := false
      keepLog := true
      logCompression := Compression.bzip2
      maxLogSize := 0
      cacheFailure := false
      pollInterval := 5
      checkRootReachability := false
      gcKeepOutputs := false
      gcKeepDerivations := true
      autoOptimiseStore := false
      envKeepDerivations := false
      lockCPU := getEnvD env "NIX_AFFINITY_HACK" "1" = "1"
      showTrace := false
      substituters := []
      nixStore := ""
      nixDataDir := ""
      nixLogDir := ""
      nixStateDir := ""
      nixDBPath := ""
      nixConfDir := ""
      nixLibexecDir := ""
      nixBinDir := ""
      nixDaemonSocketFile := "" }

namespace Settings

/-- `Settings::processEnvironment()`: resolve the path fields from the
environment with compiled-in fallbacks. Note from the source: every
field but `nixDBPath` is canonicalized; `nixDBPath` falls back to
`nixStateDir + "/db"`, not to a compiled constant, and is stored raw;
`nixStore` consults `NIX_STORE_DIR` then `NIX_STORE`. -/
def processEnvironment (env : Env) (s : SettingsState) : SettingsState :=
  let nixStateDir := canonPath (getEnvD env "NIX_STATE_DIR" NIX_STATE_DIR_c)
  { s with fields :=
    { s.fields with
      nixStore :=
        canonPath (getEnvD env "NIX_STORE_DIR" (getEnvD env "NIX_STORE" NIX_STORE_DIR_c))
      nixDataDir := canonPath (getEnvD env "NIX_DATA_DIR" NIX_DATA_DIR_c)
      nixLogDir := canonPath (getEnvD env "NIX_LOG_DIR" NIX_LOG_DIR_c)
      nixStateDir := nixStateDir
      nixDBPath := getEnvD env "NIX_DB_DIR" (nixStateDir ++ "/db")
      nixConfDir :=
        canonPath (getEnvD env "GUIX_CONFIGURATION_DIRECTORY" GUIX_CONFIGURATION_DIRECTORY_c)
      nixLibexecDir := canonPath (getEnvD env "NIX_LIBEXEC_DIR" NIX_LIBEXEC_DIR_c)
      nixBinDir := canonPath (getEnvD env "NIX_BIN_DIR" NIX_BIN_DIR_c)
      nixDaemonSocketFile := canonPath (nixStateDir ++ DEFAULT_SOCKET_PATH) } }

/-- The registry's error kinds (§7): thrown by the boolean and integer
coercions and by `pack`. -/
inductive SettingsError
  | invalidBoolean (name value : String)
  | invalidInteger (name : String)
  | illegalSetting
deriving DecidableEq, Repr

/-- `Settings::set(name, value)`: store the raw value in both the
backing store and the override log. -/
def set (s : SettingsState) (name value : String) : SettingsState :=
  { s with
    settings := mapInsert name value s.settings
    overrides := mapInsert name value s.overrides }

/-- `Settings::get(const string &, const string &)`: the raw value, or
the default when absent. -/
def getString (s : SettingsState) (name dflt : String) : String :=
  match mapFind s.settings name with
  | Option.none => dflt
  | some v => v

/-- `Settings::get(const string &, const Strings &)`: the raw value
tokenized on whitespace, or the default when absent. -/
def getStrings (s : SettingsState) (name : String) (dflt : List String) : List String :=
  match mapFind s.settings name with
  | Option.none => dflt
  | some v => tokenizeString whitespaceSeps v

/-- `Settings::get(const string &, bool)` via `_get(bool &, ...)`: the
default when absent; `true`/`false` parsed exactly; anything else is
the `InvalidBoolean` error. -/
def getBool (s : SettingsState) (name : String) (dflt : Bool) :
    Except SettingsError Bool :=
  match mapFind s.settings name with
  | Option.none => Except.ok dflt
  | some v =>
    if v = "true" then Except.ok true
    else if v = "false" then Except.ok false
    else Except.error (SettingsError.invalidBoolean name v)

/-- `Settings::get(const string &, int)` via the `_get<N>` template: the
default when absent; otherwise `string2Int` on the full raw value, the
`InvalidInteger` error when it does not parse. -/
def getInt (s : SettingsState) (name : String) (dflt : Int) :
    Except SettingsError Int :=
  match mapFind s.settings name with
  | Option.none => Except.ok dflt
  | some v =>
    match string2Int v with
    | some n => Except.ok n
    | Option.none => Except.error (SettingsError.invalidInteger name)

/-- One `_get(field, "key")` line of `Settings::update()`: the target
typed field (identified by its setter) and the backing-store key. The
C++ `_get` overloads read only the `settings` map and write only the
one field, which the embedding makes explicit by acting on
`TypedFields`. -/
inductive UpdStep
  | bfield (key : String) (put : TypedFields → Bool → TypedFields)
  | ifield (key : String) (put : TypedFields → Int → TypedFields)
  | sfield (key : String) (put : TypedFields → String → TypedFields)

/-- Run one `_get(field, key)` line: absent key leaves the field
unchanged; a present key is coerced per the field's type, raising
`InvalidBoolean`/`InvalidInteger` on a malformed raw value. -/
def runStep (m : SettingsMap) (f : TypedFields) : UpdStep → Except SettingsError TypedFields
  | UpdStep.bfield key put =>
    match mapFind m key with
    | Option.none => Except.ok f
    | some v =>
      if v = "true" then Except.ok (put f true)
      else if v = "false" then Except.ok (put f false)
      else Except.error (SettingsError.invalidBoolean key v)
  | UpdStep.ifield key put =>
    match mapFind m key with
    | Option.none => Except.ok f
    | some v =>
      match string2Int v with
      | some n => Except.ok (put f n)
      | Option.none => Except.error (SettingsError.invalidInteger key)
  | UpdStep.sfield key put =>
    match mapFind m key with
    | Option.none => Except.ok f
    | some v => Except.ok (put f v)

/-- Run the `_get` lines in order. The first error stops the walk; the
fields already written stay written (the C++ `Settings` object survives
the thrown exception), which is why the result carries both the fields
reached so far and the error, instead of discarding state on error. -/
def runSteps (m : SettingsMap) : List UpdStep → TypedFields →
    TypedFields × Option SettingsError
  | [], f => (f, Option.none)
  | st :: rest, f =>
    match runStep m f st with
    | Except.ok f1 => runSteps m rest f1
    | Except.error e => (f, some e)

/-- The fixed `(typed field, key)` list walked by `Settings::update()`,
in source order. (`logCompression` is commented out in the source.) -/
def updateSteps : List UpdStep :=
  [ UpdStep.bfield "build-fallback" (fun f b => { f with tryFallback := b }),
    UpdStep.ifield "build-max-jobs" (fun f n => { f with maxBuildJobs := n }),
    UpdStep.ifield "build-cores" (fun f n => { f with buildCores := n }),
    UpdStep.sfield "system" (fun f v => { f with thisSystem := v }),
    UpdStep.ifield "build-max-silent-time" (fun f n => { f with maxSilentTime := n }),
    UpdStep.ifield "build-timeout" (fun f n => { f with buildTimeout := n }),
    UpdStep.ifield "gc-reserved-space" (fun f n => { f with reservedSize := n }),
    UpdStep.bfield "fsync-metadata" (fun f b => { f with fsyncMetadata := b }),
    UpdStep.bfield "use-sqlite-wal" (fun f b => { f with useSQLiteWAL := b }),
    UpdStep.bfield "sync-before-registering" (fun f b => { f with syncBeforeRegistering := b }),
    UpdStep.bfield "build-use-substitutes" (fun f b => { f with useSubstitutes := b }),
    UpdStep.sfield "build-users-group" (fun f v => { f with buildUsersGroup := v }),
    UpdStep.bfield "build-use-chroot" (fun f b => { f with useChroot := b }),
    UpdStep.bfield "build-impersonate-linux-26" (fun f b => { f with impersonateLinux26 := b }),
    UpdStep.bfield "build-keep-log" (fun f b => { f with keepLog := b }),
    UpdStep.ifield "build-max-log-size" (fun f n => { f with maxLogSize := n }),
    UpdStep.bfield "build-cache-failure" (fun f b => { f with cacheFailure := b }),
    UpdStep.ifield "build-poll-interval" (fun f n => { f with pollInterval := n }),
    UpdStep.bfield "gc-check-reachability" (fun f b => { f with checkRootReachability := b }),
    UpdStep.bfield "gc-keep-outputs" (fun f b => { f with gcKeepOutputs := b }),
    UpdStep.bfield "gc-keep-derivations" (fun f b => { f with gcKeepDerivations := b }),
    UpdStep.bfield "auto-optimise-store" (fun f b => { f with autoOptimiseStore := b }),
    UpdStep.bfield "env-keep-derivations" (fun f b => { f with envKeepDerivations := b }) ]

/-- The tail of `Settings::update()`: read `NIX_SUBSTITUTERS` from the
process environment at call time; on the literal `"default"` reset
`substituters` to the fixed two-entry compiled list under
`nixLibexecDir`, otherwise split the value on `:`. -/
def applySubstituters (env : Env) (f : TypedFields) : TypedFields :=
  let subs := getEnvD env "NIX_SUBSTITUTERS" "default"
  if subs = "default" then
    { f with substituters :=
        [ f.nixLibexecDir ++ "/nix/substituters/download-using-manifests.pl",
          f.nixLibexecDir ++ "/nix/substituters/download-from-binary-cache.pl" ] }
  else
    { f with substituters := tokenizeString [':'] subs }

/-- `Settings::update()`: walk the fixed list, then handle the
substituters. The pair result is (registry state after the call,
error); an error skips the substituters block, and the typed fields
written before the error remain written. -/
def update (env : Env) (s : SettingsState) : SettingsState × Option SettingsError :=
  match runSteps s.settings updateSteps s.fields with
  | (f1, Option.none) =>
    ({ s with fields := applySubstituters env f1 }, Option.none)
  | (f1, some e) => ({ s with fields := f1 }, some e)

/-- The per-entry validity check of `Settings::pack()`: the name may
contain neither a newline nor `=`, the value no newline. (The value is
not checked for `=`.) -/
def packEntryOk (e : String × String) : Bool :=
  !(strContainsChar e.1 '\n' || strContainsChar e.1 '=' || strContainsChar e.2 '\n')

/-- `Settings::pack()` over a settings map: `name=value\n` per entry in
iteration order; the `IllegalSetting` error (and no output at all) when
any entry fails the check. -/
def packMap : SettingsMap → Except SettingsError String
  | [] => Except.ok ""
  | e :: t =>
    if packEntryOk e then
      (packMap t).map (fun rest => e.1 ++ "=" ++ e.2 ++ "\n" ++ rest)
    else Except.error SettingsError.illegalSetting

/-- `Settings::pack()`. -/
def pack (s : SettingsState) : Except SettingsError String :=
  packMap s.settings

/-- `Settings::getOverrides()`: a copy of the override log. -/
def getOverrides (s : SettingsState) : SettingsMap :=
  s.overrides

end Settings

/-- Split a character list at the first `=`, the way a reader of the
§4.5 blob format recovers name and value from a record line. -/
def splitEq : List Char → List Char × List Char
  | [] => ([], [])
  | c :: t =>
    if c = '=' then ([], t)
    else
      let p := splitEq t
      (c :: p.1, p.2)

/-- The reference re-parser for the §4.5 serialization format: cut the
blob into newline-terminated lines and split each line at its first
`=` into a (name, value) entry. -/
def parseBlob (blob : String) : SettingsMap :=
  ((splitAny ['\n'] blob.data).filter (fun l => !l.isEmpty)).map
    (fun l =>
      let p := splitEq l
      (String.mk p.1, String.mk p.2))

/-- The visible operations on an already-constructed registry, for
stating trace properties: explicit writes, the four typed reads, bulk
refresh (with the environment seen at that call) and serialization. -/
inductive Op
  | set (name value : String)
  | getString (name dflt : String)
  | getStrings (name : String) (dflt : List String)
  | getBool (name : String) (dflt : Bool)
  | getInt (name : String) (dflt : Int)
  | update (env : Env)
  | pack

/-- The state after one operation. The typed reads and `pack` compute
their results from the state without mutating it (their embeddings
above are pure functions of the state); `update` can mutate only the
typed fields, even when it fails. -/
def applyOp (s : SettingsState) : Op → SettingsState
  | Op.set n v => Settings.set s n v
  | Op.getString _ _ => s
  | Op.getStrings _ _ => s
  | Op.getBool _ _ => s
  | Op.getInt _ _ => s
  | Op.update env => (Settings.update env s).1
  | Op.pack => s

/-- The state after a call sequence. -/
def runOps (s : SettingsState) (ops : List Op) : SettingsState :=
  ops.foldl applyOp s

/-- The most recent value passed to `Set` for `name` in the call
sequence, if any — the reference description of the override log. -/
def lastSetVal (name : String) (ops : List Op) : Option String :=
  ops.foldl
    (fun acc op =>
      match op with
      | Op.set n v => if n = name then some v else acc
      | _ => acc)
    Option.none

/-! ## Basic map lemmas -/

theorem mapFind_mapInsert (m : SettingsMap) (k v q : String) :
    mapFind (mapInsert k v m) q = if q = k then some v else mapFind m q := by
  induction m with
  | nil => simp [mapInsert, mapFind]
  | cons e t ih =>
    obtain ⟨k1, v1⟩ := e
    simp only [mapInsert]
    by_cases h1 : k = k1
    · subst h1
      rw [if_pos rfl]
      by_cases h2 : q = k <;> simp [mapFind, h2]
    · rw [if_neg h1]
      cases hlt : strLt k k1 with
      | true =>
        rw [if_pos (by simp [hlt])]
        by_cases h2 : q = k <;> simp [mapFind, h2]
      | false =>
        rw [if_neg (by simp [hlt])]
        by_cases h2 : q = k1
        · subst h2
          have hqk : ¬ q = k := fun hh => h1 hh.symm
          simp [mapFind, hqk]
        · simp [mapFind, h2, ih]

/-! ## C1: absent names fall back to the default, for all four types -/

/-- C1: for every setting name not present in the backing store, each of
the four typed reads (string, string-list, boolean, integer) returns the
caller-supplied default unchanged and raises no error. -/
theorem get_absent_returns_default (s : SettingsState) (name : String)
    (ds : String) (dl : List String) (db : Bool) (di : Int)
    (h : mapFind s.settings name = Option.none) :
    Settings.getString s name ds = ds ∧
    Settings.getStrings s name dl = dl ∧
    Settings.getBool s name db = Except.ok db ∧
    Settings.getInt s name di = Except.ok di := by
  simp [Settings.getString, Settings.getStrings, Settings.getBool, Settings.getInt, h]

/-- Witness for C1 at a concrete registry and name. -/
theorem get_absent_returns_default_witness :
    mapFind (initSettings (fun _ => Option.none)).settings "no-such-setting" = Option.none ∧
    (Settings.getString (initSettings (fun _ => Option.none)) "no-such-setting" "dflt" = "dflt" ∧
     Settings.getStrings (initSettings (fun _ => Option.none)) "no-such-setting" ["a", "b"] = ["a", "b"] ∧
     Settings.getBool (initSettings (fun _ => Option.none)) "no-such-setting" true = Except.ok true ∧
     Settings.getInt (initSettings (fun _ => Option.none)) "no-such-setting" 7 = Except.ok 7) :=
  ⟨rfl,
   get_absent_returns_default (initSettings (fun _ => Option.none)) "no-such-setting"
     "dflt" ["a", "b"] true 7 rfl⟩

/-! ## C2: the boolean read on present names -/

/-- C2: for every name present in the backing store, the boolean read
returns `true` when the raw value is exactly `"true"`, `false` when it
is exactly `"false"`, and fails with `InvalidBoolean` on every other
raw value. -/
theorem getBool_present (s : SettingsState) (name v : String) (db : Bool)
    (h : mapFind s.settings name = some v) :
    Settings.getBool s name db =
      (if v = "true" then Except.ok true
       else if v = "false" then Except.ok false
       else Except.error (Settings.SettingsError.invalidBoolean name v)) := by
  simp [Settings.getBool, h]

/-- Witness for C2: a registry holding `"true"`, `"false"` and a
malformed boolean, read back through `getBool`. -/
theorem getBool_present_witness :
    (mapFind (Settings.set (initSettings (fun _ => Option.none)) "a" "true").settings "a"
       = some "true" ∧
     Settings.getBool (Settings.set (initSettings (fun _ => Option.none)) "a" "true") "a" false
       = Except.ok true) ∧
    (mapFind (Settings.set (initSettings (fun _ => Option.none)) "a" "false").settings "a"
       = some "false" ∧
     Settings.getBool (Settings.set (initSettings (fun _ => Option.none)) "a" "false") "a" true
       = Except.ok false) ∧
    (mapFind (Settings.set (initSettings (fun _ => Option.none)) "a" "True").settings "a"
       = some "True" ∧
     Settings.getBool (Settings.set (initSettings (fun _ => Option.none)) "a" "True") "a" false
       = Except.error (Settings.SettingsError.invalidBoolean "a" "True")) :=
  ⟨⟨rfl, getBool_present _ "a" "true" false rfl⟩,
   ⟨rfl, getBool_present _ "a" "false" true rfl⟩,
   ⟨rfl, getBool_present _ "a" "True" false rfl⟩⟩

/-! ## Update lemmas and the override log -/

theorem update_fst_overrides (env : Env) (s : SettingsState) :
    ((Settings.update env s).1).overrides = s.overrides := by
  unfold Settings.update
  rcases h : Settings.runSteps s.settings Settings.updateSteps s.fields with ⟨f1, e⟩
  cases e <;> simp

theorem update_fst_settings (env : Env) (s : SettingsState) :
    ((Settings.update env s).1).settings = s.settings := by
  unfold Settings.update
  rcases h : Settings.runSteps s.settings Settings.updateSteps s.fields with ⟨f1, e⟩
  cases e <;> simp

theorem applyOp_overrides (s : SettingsState) (op : Op) (name : String) :
    mapFind ((applyOp s op).overrides) name =
      (match op with
       | Op.set n v => if n = name then some v else mapFind s.overrides name
       | _ => mapFind s.overrides name) := by
  cases op with
  | set n v =>
    simp only [applyOp, Settings.set, mapFind_mapInsert]
    by_cases h : n = name
    · subst h; simp
    · have h2 : ¬ name = n := fun hh => h hh.symm
      simp [h, h2]
  | update env => simp [applyOp, update_fst_overrides]
  | _ => rfl

theorem overrides_run_aux (ops : List Op) (s : SettingsState) (name : String) :
    mapFind ((runOps s ops).overrides) name =
      ops.foldl
        (fun acc op =>
          match op with
          | Op.set n v => if n = name then some v else acc
          | _ => acc)
        (mapFind s.overrides name) := by
  induction ops generalizing s with
  | nil => rfl
  | cons op t ih =>
    show mapFind ((runOps (applyOp s op) t).overrides) name = _
    rw [ih (applyOp s op)]
    cases op <;> simp [applyOp_overrides, List.foldl]

/-- C4: after any sequence of `Set`, `Get`, `Update` and `Serialize`
calls on a freshly constructed registry, the override log maps exactly
the names passed to `Set`, each to the most recent value passed to
`Set` for it; names only read by `Get` or synchronized by `Update`
never appear. Stated per name: the override-log lookup equals the
most-recent-`Set` value, with `none` meaning absence. -/
theorem getOverrides_exact (env0 : Env) (ops : List Op) (name : String) :
    mapFind (Settings.getOverrides (runOps (initSettings env0) ops)) name =
      lastSetVal name ops := by
  unfold Settings.getOverrides lastSetVal
  rw [overrides_run_aux]
  rfl

/-! ## C5: the first coercion error aborts `update` without rollback -/

theorem runSteps_prefix_ok (m : SettingsMap) (l1 l2 : List Settings.UpdStep)
    (f f1 : TypedFields)
    (h : Settings.runSteps m l1 f = (f1, Option.none)) :
    Settings.runSteps m (l1 ++ l2) f = Settings.runSteps m l2 f1 := by
  induction l1 generalizing f with
  | nil =>
    simp only [Settings.runSteps] at h
    have hf : f = f1 := congrArg Prod.fst h
    subst hf
    simp
  | cons st t ih =>
    simp only [Settings.runSteps, List.cons_append] at h ⊢
    cases hr : Settings.runStep m f st with
    | ok g => rw [hr] at h; exact ih g h
    | error e => rw [hr] at h; simp at h

/-- C5: when `Update()` meets its first coercion error while walking
the fixed `(typed field, key)` list, it surfaces that error, every
field processed earlier in the list keeps its newly coerced value (no
rollback), and no later field — nor the substituters block — is
processed: the resulting state is exactly the one the successful
prefix produced. -/
theorem update_first_error (env : Env) (s : SettingsState)
    (l1 l2 : List Settings.UpdStep) (st : Settings.UpdStep) (f1 : TypedFields)
    (e : Settings.SettingsError)
    (hsteps : Settings.updateSteps = l1 ++ st :: l2)
    (hpre : Settings.runSteps s.settings l1 s.fields = (f1, Option.none))
    (herr : Settings.runStep s.settings f1 st = Except.error e) :
    Settings.update env s = ({ s with fields := f1 }, some e) := by
  unfold Settings.update
  rw [hsteps, runSteps_prefix_ok s.settings l1 (st :: l2) s.fields f1 hpre]
  simp only [Settings.runSteps, herr]

/-- Witness for C5, the spec's own scenario: with
`build-fallback = "true"` and `build-max-jobs = "oops"` in the backing
store, `update` fails with `InvalidInteger` for `build-max-jobs`, and
the earlier field `tryFallback` is already `true` in the state the
failing call leaves behind. -/
theorem update_first_error_witness :
    Settings.runSteps
        (Settings.set (Settings.set (initSettings (fun _ => Option.none))
          "build-fallback" "true") "build-max-jobs" "oops").settings
        [Settings.UpdStep.bfield "build-fallback" (fun f b => { f with tryFallback := b })]
        (Settings.set (Settings.set (initSettings (fun _ => Option.none))
          "build-fallback" "true") "build-max-jobs" "oops").fields
      = ({ (initSettings (fun _ => Option.none)).fields with tryFallback := true },
         Option.none) ∧
    Settings.update (fun _ => Option.none)
        (Settings.set (Settings.set (initSettings (fun _ => Option.none))
          "build-fallback" "true") "build-max-jobs" "oops")
      = ({ Settings.set (Settings.set (initSettings (fun _ => Option.none))
              "build-fallback" "true") "build-max-jobs" "oops" with
            fields := { (initSettings (fun _ => Option.none)).fields with tryFallback := true } },
         some (Settings.SettingsError.invalidInteger "build-max-jobs")) :=
  ⟨rfl,
   update_first_error (fun _ => Option.none)
     (Settings.set (Settings.set (initSettings (fun _ => Option.none))
       "build-fallback" "true") "build-max-jobs" "oops")
     [Settings.UpdStep.bfield "build-fallback" (fun f b => { f with tryFallback := b })]
     _
     (Settings.UpdStep.ifield "build-max-jobs" (fun f n => { f with maxBuildJobs := n }))
     { (initSettings (fun _ => Option.none)).fields with tryFallback := true }
     (Settings.SettingsError.invalidInteger "build-max-jobs")
     rfl rfl rfl⟩

/-! ## C6: which operations read the process environment -/

/-- C6 counterexample: `Settings::update` reads `NIX_SUBSTITUTERS` from
the process environment at call time, so running `Update` from one and
the same registry state under two environments that differ in that
variable yields different results — contradicting the claim that only
construction-time resolution reads the environment. -/
theorem update_reads_environment_counterexample :
    Settings.update (fun _ => Option.none)
        (Settings.processEnvironment (fun _ => Option.none)
          (initSettings (fun _ => Option.none))) ≠
      Settings.update (fun k => if k = "NIX_SUBSTITUTERS" then some "/a:/b" else Option.none)
        (Settings.processEnvironment (fun _ => Option.none)
          (initSettings (fun _ => Option.none))) := by
  decide

/-- C6 (amended): `Get`, `Set`, `Serialize` and `GetOverrides` take no
environment input at all in this embedding, mirroring the source, and
are therefore environment-independent; `Update`, however, does read the
environment at call time — but only the variable `NIX_SUBSTITUTERS`:
two `Update` calls from the same state under environments that agree on
`NIX_SUBSTITUTERS` yield the identical result and identical resulting
registry state. -/
theorem update_env_only_substituters (env1 env2 : Env) (s : SettingsState)
    (h : env1 "NIX_SUBSTITUTERS" = env2 "NIX_SUBSTITUTERS") :
    Settings.update env1 s = Settings.update env2 s := by
  unfold Settings.update
  rcases hr : Settings.runSteps s.settings Settings.updateSteps s.fields with ⟨f1, e⟩
  cases e with
  | none => simp [Settings.applySubstituters, getEnvD, h]
  | some e => rfl

/-- Witness for the amended C6 at two concrete environments that agree
on `NIX_SUBSTITUTERS` (differing on `HOME`). -/
theorem update_env_only_substituters_witness :
    ((fun _ => Option.none : Env) "NIX_SUBSTITUTERS" =
       (fun k => if k = "HOME" then some "/root" else Option.none : Env) "NIX_SUBSTITUTERS") ∧
    Settings.update (fun _ => Option.none) (initSettings (fun _ => Option.none)) =
      Settings.update (fun k => if k = "HOME" then some "/root" else Option.none)
        (initSettings (fun _ => Option.none)) :=
  ⟨by decide,
   update_env_only_substituters (fun _ => Option.none)
     (fun k => if k = "HOME" then some "/root" else Option.none)
     (initSettings (fun _ => Option.none)) (by decide)⟩

/-! ## C3 and C10: serialization -/

theorem data_mk (l : List Char) : (String.mk l).data = l := rfl

theorem mk_data (s : String) : String.mk s.data = s := by
  cases s; rfl

/-- The §4.5 blob spelled out: the concatenation of `name=value` plus a
line terminator, one record per entry, in enumeration order. -/
def encodeMap : SettingsMap → String
  | [] => ""
  | e :: t => e.1 ++ "=" ++ e.2 ++ "\n" ++ encodeMap t

theorem packMap_eq_ok (m : SettingsMap)
    (h : m.all Settings.packEntryOk = true) :
    Settings.packMap m = Except.ok (encodeMap m) := by
  induction m with
  | nil => rfl
  | cons e t ih =>
    simp only [List.all_cons, Bool.and_eq_true] at h
    simp [Settings.packMap, h.1, ih h.2, encodeMap, Except.map]

theorem packMap_eq_error (m : SettingsMap)
    (h : m.all Settings.packEntryOk = false) :
    Settings.packMap m = Except.error Settings.SettingsError.illegalSetting := by
  induction m with
  | nil => simp at h
  | cons e t ih =>
    cases he : Settings.packEntryOk e with
    | false => simp [Settings.packMap, he]
    | true =>
      simp only [List.all_cons, he, Bool.true_and] at h
      simp [Settings.packMap, he, ih h, Except.map]

theorem splitAny_append (seps : List Char) (xs ys : List Char) (d : Char)
    (hx : ∀ c ∈ xs, seps.contains c = false) (hd : seps.contains d = true) :
    splitAny seps (xs ++ d :: ys) = xs :: splitAny seps ys := by
  induction xs with
  | nil =>
    have hdm : d ∈ seps := by simpa using hd
    simp [splitAny, hdm]
  | cons c t ih =>
    have hc : seps.contains c = false := hx c (List.mem_cons_self c t)
    have hcm : c ∉ seps := by simpa using hc
    have ht : ∀ x ∈ t, seps.contains x = false :=
      fun x hx2 => hx x (List.mem_cons_of_mem c hx2)
    simp [splitAny, hcm, ih ht]

theorem splitEq_append (xs ys : List Char) (hx : ∀ c ∈ xs, ¬ c = '=') :
    splitEq (xs ++ '=' :: ys) = (xs, ys) := by
  induction xs with
  | nil => simp [splitEq]
  | cons c t ih =>
    have hc : ¬ c = '=' := hx c (List.mem_cons_self c t)
    have ht : ∀ x ∈ t, ¬ x = '=' := fun x hx2 => hx x (List.mem_cons_of_mem c hx2)
    simp [splitEq, hc, ih ht]

theorem strContains_false_iff (s : String) (c : Char) :
    strContainsChar s c = false ↔ c ∉ s.data := by
  simp [strContainsChar]

theorem parseBlob_encodeMap (m : SettingsMap)
    (h : m.all Settings.packEntryOk = true) :
    parseBlob (encodeMap m) = m := by
  induction m with
  | nil => rfl
  | cons e t ih =>
    simp only [List.all_cons, Bool.and_eq_true] at h
    obtain ⟨he, ht⟩ := h
    have hn1 : (strContainsChar e.1 '\n' = false ∧ strContainsChar e.1 '=' = false) ∧
        strContainsChar e.2 '\n' = false := by
      simpa [Settings.packEntryOk] using he
    have hdata : (encodeMap (e :: t)).data =
        (e.1.data ++ '=' :: e.2.data) ++ '\n' :: (encodeMap t).data := by
      simp [encodeMap, String.data_append]
    have hnonl : ∀ c ∈ e.1.data ++ '=' :: e.2.data, List.contains ['\n'] c = false := by
      intro c hcmem
      rcases List.mem_append.mp hcmem with hm | hm
      · have hne : ¬ c = '\n' := by
          intro hcn
          subst hcn
          exact ((strContains_false_iff e.1 '\n').mp hn1.1.1) hm
        simp [hne]
      · rcases List.mem_cons.mp hm with hm2 | hm2
        · subst hm2; simp
        · have hne : ¬ c = '\n' := by
            intro hcn
            subst hcn
            exact ((strContains_false_iff e.2 '\n').mp hn1.2) hm2
          simp [hne]
    unfold parseBlob
    rw [hdata, splitAny_append ['\n'] _ _ '\n' hnonl (by simp)]
    have hne : (e.1.data ++ '=' :: e.2.data).isEmpty = false := by
      have : '=' ∈ e.1.data ++ '=' :: e.2.data :=
        List.mem_append_right _ (List.mem_cons_self _ _)
      cases hcase : e.1.data ++ '=' :: e.2.data with
      | nil => rw [hcase] at this; simp at this
      | cons a l => simp
    have hsplit : splitEq (e.1.data ++ '=' :: e.2.data) = (e.1.data, e.2.data) := by
      refine splitEq_append _ _ ?_
      intro c hcmem hceq
      subst hceq
      exact ((strContains_false_iff e.1 '=').mp hn1.1.2) hcmem
    simp only [List.filter_cons, hne, Bool.not_false, if_true, List.map_cons, hsplit,
      mk_data]
    have := ih ht
    unfold parseBlob at this
    rw [this]

/-- C3: for every backing store in which no name or value contains a
line terminator and no name contains `=`, `Serialize` produces the
concatenation of `name=value` plus a line terminator for every entry
(`encodeMap`), and re-parsing that blob reproduces the backing store
exactly; when any entry violates those conditions, `Serialize` fails
with `IllegalSetting` and returns no output at all. -/
theorem pack_roundtrip (m : SettingsMap) :
    (m.all Settings.packEntryOk = true →
       Settings.packMap m = Except.ok (encodeMap m) ∧ parseBlob (encodeMap m) = m) ∧
    (m.all Settings.packEntryOk = false →
       Settings.packMap m = Except.error Settings.SettingsError.illegalSetting) :=
  ⟨fun h => ⟨packMap_eq_ok m h, parseBlob_encodeMap m h⟩, fun h => packMap_eq_error m h⟩

/-- Witness for C3: a valid two-entry store (whose second value even
contains `=`) round-trips; a value containing a newline makes `pack`
fail with `IllegalSetting`. -/
theorem pack_roundtrip_witness :
    (Settings.packMap [("a", "1"), ("b", "x=y")]
       = Except.ok (encodeMap [("a", "1"), ("b", "x=y")]) ∧
     parseBlob (encodeMap [("a", "1"), ("b", "x=y")]) = [("a", "1"), ("b", "x=y")]) ∧
    Settings.packMap [("a", "1\n2")]
      = Except.error Settings.SettingsError.illegalSetting :=
  ⟨(pack_roundtrip [("a", "1"), ("b", "x=y")]).1 (by decide),
   (pack_roundtrip [("a", "1\n2")]).2 (by decide)⟩

/-- C10: `pack` checks values only for the line terminator, never for
`=`: it succeeds exactly when every name is free of newline and `=` and
every value is free of newline — in particular it succeeds when a value
contains `=` — and it throws `IllegalSetting` exactly when some name
contains a newline or `=` or some value contains a newline. -/
theorem pack_checks_characterization (m : SettingsMap) :
    ((∃ blob, Settings.packMap m = Except.ok blob) ↔
       ∀ e ∈ m, strContainsChar e.1 '\n' = false ∧ strContainsChar e.1 '=' = false ∧
         strContainsChar e.2 '\n' = false) ∧
    ((Settings.packMap m = Except.error Settings.SettingsError.illegalSetting) ↔
       ∃ e ∈ m, (strContainsChar e.1 '\n' = true ∨ strContainsChar e.1 '=' = true ∨
         strContainsChar e.2 '\n' = true)) := by
  have hall : m.all Settings.packEntryOk = true ↔
      ∀ e ∈ m, strContainsChar e.1 '\n' = false ∧ strContainsChar e.1 '=' = false ∧
        strContainsChar e.2 '\n' = false := by
    rw [List.all_eq_true]
    constructor
    · intro h e he
      have := h e he
      simpa [Settings.packEntryOk, and_assoc] using this
    · intro h e he
      have := h e he
      simp [Settings.packEntryOk, this.1, this.2.1, this.2.2]
  cases hcase : m.all Settings.packEntryOk with
  | true =>
    constructor
    · rw [iff_true_right (hall.mp hcase)]
      exact ⟨encodeMap m, packMap_eq_ok m hcase⟩
    · rw [packMap_eq_ok m hcase]
      simp only [reduceCtorEq, false_iff]
      intro hex
      rcases hex with ⟨e, he, hbad⟩
      have hok := hall.mp hcase e he
      rcases hbad with hb | hb | hb
      · rw [hok.1] at hb; exact Bool.false_ne_true hb
      · rw [hok.2.1] at hb; exact Bool.false_ne_true hb
      · rw [hok.2.2] at hb; exact Bool.false_ne_true hb
  | false =>
    have herr := packMap_eq_error m hcase
    constructor
    · rw [herr]
      simp only [reduceCtorEq, exists_false, false_iff]
      intro hforall
      rw [hall.mpr hforall] at hcase
      simp at hcase
    · rw [herr, iff_true_left rfl]
      have : ¬ ∀ e ∈ m, Settings.packEntryOk e = true := by
        intro h
        rw [List.all_eq_true.mpr h] at hcase
        simp at hcase
      push_neg at this
      rcases this with ⟨e, he, hne⟩
      refine ⟨e, he, ?_⟩
      have : Settings.packEntryOk e = false := by
        cases hpe : Settings.packEntryOk e
        · rfl
        · exact absurd hpe hne
      simp only [Settings.packEntryOk, Bool.not_eq_false'] at this
      rcases Bool.or_eq_true_iff.mp this with h1 | h2
      · rcases Bool.or_eq_true_iff.mp h1 with h3 | h4
        · exact Or.inl h3
        · exact Or.inr (Or.inl h4)
      · exact Or.inr (Or.inr h2)

/-! ## Decimal parsing and rendering (for C7 and C9) -/

theorem digitChar_isDigit {d : Nat} (h : d < 10) : (digitChar d).isDigit = true := by
  interval_cases d <;> decide

theorem digitVal_digitChar {d : Nat} (h : d < 10) : digitVal (digitChar d) = d := by
  interval_cases d <;> decide

theorem digitChar_ne_sign {d : Nat} (h : d < 10) :
    ¬ digitChar d = '-' ∧ ¬ digitChar d = '+' := by
  interval_cases d <;> exact ⟨by decide, by decide⟩

theorem parseNatAux_digits (L : List Nat) (hL : ∀ d ∈ L, d < 10) (acc : Nat) :
    parseNatAux (L.map digitChar) acc =
      some (acc * 10 ^ L.length + Nat.ofDigits 10 L.reverse) := by
  induction L generalizing acc with
  | nil => simp [parseNatAux, Nat.ofDigits]
  | cons d t ih =>
    have hd : d < 10 := hL d (List.mem_cons_self d t)
    have ht : ∀ x ∈ t, x < 10 := fun x hx => hL x (List.mem_cons_of_mem d hx)
    simp only [List.map_cons, parseNatAux, digitChar_isDigit hd, if_true,
      digitVal_digitChar hd, ih ht]
    congr 1
    rw [List.reverse_cons, Nat.ofDigits_append]
    simp [Nat.ofDigits]
    ring

theorem parseNatDigits_natDigitsRepr {n : Nat} (h : n ≠ 0) :
    parseNatDigits (natDigitsRepr n) = some n := by
  have hne : Nat.digits 10 n ≠ [] := Nat.digits_ne_nil_iff_ne_zero.mpr h
  have hlt : ∀ d ∈ (Nat.digits 10 n).reverse, d < 10 := by
    intro d hd
    exact Nat.digits_lt_base (by norm_num) (List.mem_reverse.mp hd)
  have hrne : (Nat.digits 10 n).reverse ≠ [] := by simpa using hne
  obtain ⟨d, L, hdl⟩ := List.exists_cons_of_ne_nil hrne
  have hmap : natDigitsRepr n = digitChar d :: L.map digitChar := by
    unfold natDigitsRepr
    rw [hdl, List.map_cons]
  rw [hmap]
  show parseNatAux (digitChar d :: L.map digitChar) 0 = some n
  rw [← List.map_cons, ← hdl, parseNatAux_digits _ hlt 0]
  simp [Nat.ofDigits_digits]

theorem string2Int_natRepr (m : Nat) :
    string2Int (natRepr m) = some (m : Int) := by
  by_cases hz : m = 0
  · subst hz; decide
  · unfold natRepr
    rw [if_neg hz]
    have hne : Nat.digits 10 m ≠ [] := Nat.digits_ne_nil_iff_ne_zero.mpr hz
    have hrne : (Nat.digits 10 m).reverse ≠ [] := by
      simpa using hne
    obtain ⟨d, L, hdl⟩ := List.exists_cons_of_ne_nil hrne
    have hd10 : d < 10 := by
      have : d ∈ (Nat.digits 10 m).reverse := by rw [hdl]; exact List.mem_cons_self d L
      exact Nat.digits_lt_base (by norm_num) (List.mem_reverse.mp this)
    have hmap : natDigitsRepr m = digitChar d :: L.map digitChar := by
      unfold natDigitsRepr
      rw [hdl, List.map_cons]
    have hsign := digitChar_ne_sign hd10
    show string2Int (String.mk (natDigitsRepr m)) = some (m : Int)
    unfold string2Int
    rw [data_mk, hmap]
    simp only [hsign.1, hsign.2, if_false]
    rw [← hmap]
    rw [parseNatDigits_natDigitsRepr hz]
    rfl

/-- `str(n)` followed by the modelled `string2Int` is the identity:
the decimal rendering of any integer parses back to that integer. -/
theorem string2Int_intRepr (n : Int) : string2Int (intRepr n) = some n := by
  unfold intRepr
  by_cases hneg : n < 0
  · rw [if_pos hneg]
    have hz : n.natAbs ≠ 0 := by
      intro h
      omega
    have hdat : ("-" ++ natRepr n.natAbs).data = '-' :: (natRepr n.natAbs).data := by
      rw [String.data_append]
      rfl
    unfold string2Int
    rw [hdat]
    simp only [if_pos rfl]
    have hrepr : (natRepr n.natAbs).data = natDigitsRepr n.natAbs := by
      unfold natRepr
      rw [if_neg hz, data_mk]
    rw [hrepr, parseNatDigits_natDigitsRepr hz]
    show some (-(n.natAbs : Int)) = some n
    congr 1
    omega
  · rw [if_neg hneg]
    rw [string2Int_natRepr]
    congr 1
    omega

/-! ## C7: the integer read on present names -/

/-- C7: for every name present in the backing store, the integer read
succeeds exactly when the full raw string parses as a base-10 signed
integer (the modelled `string2Int`: optional sign then digits, nothing
else — no partial parse, no whitespace tolerance), returning that
integer; otherwise it fails with `InvalidInteger`. -/
theorem getInt_present (s : SettingsState) (name v : String) (di : Int)
    (h : mapFind s.settings name = some v) :
    (∀ n : Int, Settings.getInt s name di = Except.ok n ↔ string2Int v = some n) ∧
    (Settings.getInt s name di =
        Except.error (Settings.SettingsError.invalidInteger name) ↔
      string2Int v = Option.none) := by
  have hget : Settings.getInt s name di =
      (match string2Int v with
       | some n => Except.ok n
       | Option.none => Except.error (Settings.SettingsError.invalidInteger name)) := by
    unfold Settings.getInt
    rw [h]
  cases hv : string2Int v with
  | none =>
    rw [hv] at hget
    refine ⟨fun n => ?_, ?_⟩ <;> simp [hget, hv]
  | some k =>
    rw [hv] at hget
    refine ⟨fun n => ?_, ?_⟩ <;> simp [hget, hv]

/-- Witness for C7: a well-formed raw integer is read back, a raw value
with leading whitespace is rejected with `InvalidInteger`, and the
modelled parser rejects partial parses and surrounding whitespace. -/
theorem getInt_present_witness :
    (mapFind (Settings.set (initSettings (fun _ => Option.none)) "a" "-42").settings "a"
       = some "-42" ∧
     (Settings.getInt (Settings.set (initSettings (fun _ => Option.none)) "a" "-42") "a" 0
          = Except.ok (-42) ↔ string2Int "-42" = some (-42)) ∧
     Settings.getInt (Settings.set (initSettings (fun _ => Option.none)) "a" "-42") "a" 0
       = Except.ok (-42)) ∧
    (mapFind (Settings.set (initSettings (fun _ => Option.none)) "b" " 42").settings "b"
       = some " 42" ∧
     (Settings.getInt (Settings.set (initSettings (fun _ => Option.none)) "b" " 42") "b" 0
          = Except.error (Settings.SettingsError.invalidInteger "b") ↔
        string2Int " 42" = Option.none) ∧
     Settings.getInt (Settings.set (initSettings (fun _ => Option.none)) "b" " 42") "b" 0
       = Except.error (Settings.SettingsError.invalidInteger "b")) ∧
    string2Int "42x" = Option.none ∧ string2Int "42 " = Option.none :=
  ⟨⟨rfl,
    (getInt_present (Settings.set (initSettings (fun _ => Option.none)) "a" "-42")
      "a" "-42" 0 rfl).1 (-42),
    ((getInt_present (Settings.set (initSettings (fun _ => Option.none)) "a" "-42")
      "a" "-42" 0 rfl).1 (-42)).mpr (by decide)⟩,
   ⟨rfl,
    (getInt_present (Settings.set (initSettings (fun _ => Option.none)) "b" " 42")
      "b" " 42" 0 rfl).2,
    ((getInt_present (Settings.set (initSettings (fun _ => Option.none)) "b" " 42")
      "b" " 42" 0 rfl).2).mpr (by decide)⟩,
   by decide, by decide⟩

/-! ## C9: the integer round-trip law -/

/-- C9: for every integer representable in the target machine width and
every setting name, `Set(name, str(n))` followed by `Get(name, 0)`
returns `n`. (The embedding's integers are unbounded, so the width
bounds are carried as hypotheses mirroring the claim.) -/
theorem set_get_int_roundtrip (s : SettingsState) (name : String) (n : Int)
    (h1 : -(2 ^ 31) ≤ n) (h2 : n < 2 ^ 31) :
    Settings.getInt (Settings.set s name (intRepr n)) name 0 = Except.ok n := by
  unfold Settings.getInt Settings.set
  simp [mapFind_mapInsert, string2Int_intRepr]

/-- Witness for C9 at a concrete name and integer. -/
theorem set_get_int_roundtrip_witness :
    (-(2 ^ 31) ≤ (-1234 : Int) ∧ (-1234 : Int) < 2 ^ 31) ∧
    Settings.getInt
        (Settings.set (initSettings (fun _ => Option.none)) "build-max-jobs" (intRepr (-1234)))
        "build-max-jobs" 0 = Except.ok (-1234) :=
  ⟨⟨by decide, by decide⟩,
   set_get_int_roundtrip (initSettings (fun _ => Option.none)) "build-max-jobs" (-1234)
     (by decide) (by decide)⟩

/-! ## C8: construction-time path resolution -/

/-- C8 counterexample: with `NIX_DB_DIR` set to `"/a/"`, the resolved
database-path field is the raw value `"/a/"` and not its
canonicalization `"/a"` — `processEnvironment` stores `NIX_DB_DIR`
without `canonPath`, contradicting the claim that every filesystem-path
field is computed as `canonicalize(environment variable if set, else
compiled-in default)`. -/
theorem processEnvironment_dbPath_not_canonical :
    ((fun k => if k = "NIX_DB_DIR" then some "/a/" else (Option.none : Option String))
        "NIX_DB_DIR" = some "/a/") ∧
    (Settings.processEnvironment
        (fun k => if k = "NIX_DB_DIR" then some "/a/" else Option.none)
        (initSettings (fun _ => Option.none))).fields.nixDBPath
      ≠ canonPath "/a/" := by
  exact ⟨by decide, by decide⟩

/-- C8 (amended): during construction-time environment resolution every
filesystem-path field except the database path is computed as
`canonPath(environment variable if set, else compiled-in default)` —
with the store directory consulting `NIX_STORE_DIR` and then
`NIX_STORE` — while the database path is the raw, uncanonicalized value
of `NIX_DB_DIR` if set and otherwise the already-resolved state
directory concatenated with `"/db"` (not a compiled-in constant); the
daemon socket file is `canonPath(state directory + fixed suffix)`. The
resolution is a total function, so it never raises. -/
theorem processEnvironment_resolution (env : Env) (s : SettingsState) :
    (Settings.processEnvironment env s).fields.nixStore =
      canonPath (getEnvD env "NIX_STORE_DIR" (getEnvD env "NIX_STORE" NIX_STORE_DIR_c)) ∧
    (Settings.processEnvironment env s).fields.nixDataDir =
      canonPath (getEnvD env "NIX_DATA_DIR" NIX_DATA_DIR_c) ∧
    (Settings.processEnvironment env s).fields.nixLogDir =
      canonPath (getEnvD env "NIX_LOG_DIR" NIX_LOG_DIR_c) ∧
    (Settings.processEnvironment env s).fields.nixStateDir =
      canonPath (getEnvD env "NIX_STATE_DIR" NIX_STATE_DIR_c) ∧
    (Settings.processEnvironment env s).fields.nixDBPath =
      getEnvD env "NIX_DB_DIR"
        (canonPath (getEnvD env "NIX_STATE_DIR" NIX_STATE_DIR_c) ++ "/db") ∧
    (Settings.processEnvironment env s).fields.nixConfDir =
      canonPath (getEnvD env "GUIX_CONFIGURATION_DIRECTORY" GUIX_CONFIGURATION_DIRECTORY_c) ∧
    (Settings.processEnvironment env s).fields.nixLibexecDir =
      canonPath (getEnvD env "NIX_LIBEXEC_DIR" NIX_LIBEXEC_DIR_c) ∧
    (Settings.processEnvironment env s).fields.nixBinDir =
      canonPath (getEnvD env "NIX_BIN_DIR" NIX_BIN_DIR_c) ∧
    (Settings.processEnvironment env s).fields.nixDaemonSocketFile =
      canonPath ((Settings.processEnvironment env s).fields.nixStateDir
        ++ DEFAULT_SOCKET_PATH) :=
  ⟨rfl, rfl, rfl, rfl, rfl, rfl, rfl, rfl, rfl⟩

end Globals
